import Mathlib

/-!
Shallow embedding of the wedding gift-shop application (`streamlit_app.py`).

The DynamoDB table is modelled as a `List Item`; DynamoDB attributes that may
be absent on an item are `Option`s.  `table.update_item` with a `SET`
expression is modelled by `updateItemAttr` (an upsert, as in DynamoDB), and
`table.put_item` by `putItem` (replace-or-insert).  Pure helper structure
`UploadedImage` stands for a Streamlit `UploadedFile` (its byte size plus the
base64 payload that ends up stored).  Ambient effects of the Python code
(`uuid.uuid4()`, `datetime.now()`) are passed in as explicit arguments.
-/

namespace WeddingShop

/-- A Streamlit uploaded file: its size in bytes and the (already
base64-encoded) payload that would be stored. -/
structure UploadedImage where
  size : Nat
  data : String
deriving DecidableEq, Repr

/-- One DynamoDB item of the gift table.  Every attribute except the key `id`
may be absent. -/
structure Item where
  id : String
  item_name : Option String
  price : Option Rat
  image_data : Option String
  description : Option String
  purchased : Option Bool
  buyer_name : Option String
  buyer_message : Option String
  purchase_timestamp : Option String
deriving DecidableEq, Repr

/-- A DynamoDB item holding only its key, as created by an upserting
`update_item` on an absent key. -/
def emptyItem (key : String) : Item :=
  { id := key, item_name := none, price := none, image_data := none,
    description := none, purchased := none, buyer_name := none,
    buyer_message := none, purchase_timestamp := none }

/-- DynamoDB `table.update_item` with a `SET` update expression: applies the
attribute assignments `f` to the stored item with key `key`, or — DynamoDB
upsert semantics — to a fresh item holding only the key when no stored item
has it. -/
def updateItemAttr (store : List Item) (key : String) (f : Item → Item) : List Item :=
  if store.any (fun it => it.id = key) then
    store.map (fun it => if it.id = key then f it else it)
  else
    store ++ [f (emptyItem key)]

/-- DynamoDB `table.put_item`: stores the item wholesale, replacing any stored
item with the same key. -/
def putItem (store : List Item) (item : Item) : List Item :=
  if store.any (fun it => it.id = item.id) then
    store.map (fun it => if it.id = item.id then item else it)
  else
    store ++ [item]

/-- `mark_as_purchased` (lines 66-78): one unconditional `update_item` that
sets `purchased`, `buyer_name`, `buyer_message` and `purchase_timestamp`.
The timestamp produced by `datetime.now().isoformat()` is an argument. -/
def mark_as_purchased (store : List Item) (item_id buyer_name message timestamp : String) :
    List Item :=
  updateItemAttr store item_id (fun it =>
    { it with purchased := some true, buyer_name := some buyer_name,
              buyer_message := some message, purchase_timestamp := some timestamp })

/-- `check_image_size` (lines 80-83) with its default 1 MB limit passed
explicitly. -/
def check_image_size (image : UploadedImage) (max_size_mb : Nat) : Bool :=
  image.size ≤ max_size_mb * 1024 * 1024

/-- `add_product` (lines 85-110): rejects an oversized image before writing,
otherwise `put_item`s a fresh item with `purchased = False` and no buyer
attributes.  The generated `uuid4` key is the argument `item_id`; the stored
`image_data` is the encoded payload `image.data`.  Returns the Python
function's boolean result together with the table state. -/
def add_product (store : List Item) (item_id : String) (item_name : String) (price : Rat)
    (image : UploadedImage) (description : String) : Bool × List Item :=
  if check_image_size image 1 then
    (true, putItem store
      { id := item_id, item_name := some item_name, price := some price,
        image_data := some image.data, description := some description,
        purchased := some false, buyer_name := none, buyer_message := none,
        purchase_timestamp := none })
  else
    (false, store)

/-- `update_product` (lines 112-139): a `SET` update of `item_name`, `price`
and `description`, extended with `image_data` only when an image is supplied
(Python `if image:`); a supplied image is size-checked first. -/
def update_product (store : List Item) (item_id : String) (item_name : String) (price : Rat)
    (description : String) (image : Option UploadedImage) : Bool × List Item :=
  match image with
  | some img =>
      if check_image_size img 1 then
        (true, updateItemAttr store item_id (fun it =>
          { it with item_name := some item_name, price := some price,
                    description := some description, image_data := some img.data }))
      else
        (false, store)
  | none =>
      (true, updateItemAttr store item_id (fun it =>
        { it with item_name := some item_name, price := some price,
                  description := some description }))

/-- One `table.scan` call against a backend with page size `pageSize`:
returns the items from position `start` (the `ExclusiveStartKey`, `0` for the
initial call) and a `LastEvaluatedKey` whenever further items remain. -/
def scanPage (store : List Item) (pageSize : Nat) (start : Nat) : List Item × Option Nat :=
  ((store.drop start).take pageSize,
   if start + pageSize < store.length then some (start + pageSize) else none)

/-- The `while True` loop of `load_data` (lines 51-61): accumulate each scan
page and pass the continuation key back until no `LastEvaluatedKey` is
returned.  The backend contract that a scan page is never empty while items
remain is the hypothesis `hp`. -/
def load_data_loop (store : List Item) (pageSize : Nat) (hp : 0 < pageSize) (start : Nat) :
    List Item :=
  match h : (scanPage store pageSize start).2 with
  | none => (scanPage store pageSize start).1
  | some next => (scanPage store pageSize start).1 ++ load_data_loop store pageSize hp next
termination_by store.length - start
decreasing_by
  simp only [scanPage] at h
  by_cases hc : start + pageSize < store.length
  · simp only [if_pos hc, Option.some.injEq] at h
    omega
  · simp only [if_neg hc] at h
    exact absurd h (by simp)

/-- `load_data` (lines 45-64): drain the paginated scan from the beginning. -/
def load_data (store : List Item) (pageSize : Nat) (hp : 0 < pageSize) : List Item :=
  load_data_loop store pageSize hp 0

/-- Draining the scan from position `start` yields exactly the items from
`start` on: each iteration contributes one page and the recursive call the
rest. -/
theorem load_data_loop_eq_drop (store : List Item) (pageSize : Nat) (hp : 0 < pageSize)
    (start : Nat) : load_data_loop store pageSize hp start = store.drop start := by
  have key : ∀ n start, store.length - start ≤ n →
      load_data_loop store pageSize hp start = store.drop start := by
    intro n
    induction n with
    | zero =>
        intro start hstart
        rw [load_data_loop]
        split
        · rename_i heq
          simp only [scanPage]
          exact List.take_of_length_le (by simp; omega)
        · rename_i next heq
          simp only [scanPage, ite_eq_iff] at heq
          rcases heq with ⟨hlt, -⟩ | ⟨-, hfalse⟩
          · omega
          · exact absurd hfalse (by simp)
    | succ n ih =>
        intro start hstart
        rw [load_data_loop]
        split
        · rename_i heq
          simp only [scanPage, ite_eq_iff] at heq
          rcases heq with ⟨-, hfalse⟩ | ⟨hge, -⟩
          · exact absurd hfalse (by simp)
          · simp only [scanPage]
            exact List.take_of_length_le (by simp; omega)
        · rename_i next heq
          simp only [scanPage, ite_eq_iff] at heq
          rcases heq with ⟨hlt, hsome⟩ | ⟨-, hfalse⟩
          · have hnext : next = start + pageSize := by
              exact (Option.some.injEq _ _ ▸ hsome).symm
            subst hnext
            rw [ih (start + pageSize) (by omega)]
            simp only [scanPage]
            rw [show store.drop (start + pageSize) = (store.drop start).drop pageSize by
              rw [List.drop_drop]]
            exact List.take_append_drop pageSize (store.drop start)
          · exact absurd hfalse (by simp)
  exact key (store.length - start) start le_rfl

/-- C4: `load_data` returns every stored item whatever the backend page size:
it follows the continuation key until none is returned and never truncates at
a page boundary. -/
theorem load_data_returns_all (store : List Item) (pageSize : Nat) (hp : 0 < pageSize) :
    load_data store pageSize hp = store := by
  unfold load_data
  rw [load_data_loop_eq_drop]
  exact List.drop_zero store

/-- A concrete catalog item as `add_product` would store it, used by
witnesses and counterexamples. -/
def mkGift (key nm : String) (p : Rat) (img d : String) : Item :=
  { id := key, item_name := some nm, price := some p, image_data := some img,
    description := some d, purchased := some false, buyer_name := none,
    buyer_message := none, purchase_timestamp := none }

/-- A concrete five-item table used by witnesses. -/
def fiveGifts : List Item :=
  [mkGift "g1" "Vase" 25 "imgA" "blue", mkGift "g2" "Lamp" 40 "imgB" "tall",
   mkGift "g3" "Pan" 30 "imgC" "iron", mkGift "g4" "Rug" 80 "imgD" "red",
   mkGift "g5" "Bowl" 15 "imgE" "clay"]

/-- C4 witness: with a 2-item page size and 5 stored items, all 5 come back. -/
theorem load_data_returns_all_witness :
    0 < 2 ∧ load_data fiveGifts 2 (by decide) = fiveGifts :=
  ⟨by decide, load_data_returns_all fiveGifts 2 (by decide)⟩

/-- An item holding only a key plus the four purchase attributes — the shape
an upserting `mark_as_purchased` creates for an absent key. -/
def purchaseOnlyItem (key b m t : String) : Item :=
  { id := key, item_name := none, price := none, image_data := none,
    description := none, purchased := some true, buyer_name := some b,
    buyer_message := some m, purchase_timestamp := some t }

/-- Each item of an upserting attribute update is a stored item left alone,
`f` of the stored item carrying the key, or `f` of the fresh key-only item
when no stored item carries the key. -/
theorem mem_updateItemAttr {store : List Item} {key : String} {f : Item → Item} {it' : Item}
    (h : it' ∈ updateItemAttr store key f) :
    (∃ it, it ∈ store ∧ ((it.id = key ∧ it' = f it) ∨ (it.id ≠ key ∧ it' = it))) ∨
      (it' = f (emptyItem key) ∧ ∀ it ∈ store, it.id ≠ key) := by
  unfold updateItemAttr at h
  by_cases hany : store.any (fun it => it.id = key)
  · rw [if_pos hany] at h
    obtain ⟨it, hit, rfl⟩ := List.mem_map.mp h
    by_cases hid : it.id = key
    · exact Or.inl ⟨it, hit, Or.inl ⟨hid, by rw [if_pos hid]⟩⟩
    · exact Or.inl ⟨it, hit, Or.inr ⟨hid, by rw [if_neg hid]⟩⟩
  · rw [if_neg hany] at h
    have habs : ∀ it ∈ store, it.id ≠ key := by
      intro it hit hk
      exact hany (List.any_eq_true.mpr ⟨it, hit, by simp [hk]⟩)
    rcases List.mem_append.mp h with hin | hnew
    · exact Or.inl ⟨it', hin, Or.inr ⟨habs it' hin, rfl⟩⟩
    · exact Or.inr ⟨by simpa using hnew, habs⟩

/-- When some stored item carries the key, the upsert branch does not fire and
the update is a pointwise map over the store. -/
theorem updateItemAttr_of_mem {store : List Item} {key : String} (f : Item → Item)
    (h : ∃ it ∈ store, it.id = key) :
    updateItemAttr store key f = store.map (fun it => if it.id = key then f it else it) := by
  obtain ⟨it, hit, hid⟩ := h
  unfold updateItemAttr
  rw [if_pos (List.any_eq_true.mpr ⟨it, hit, by simp [hid]⟩)]

/-- When no stored item carries the key, the update appends `f` of the fresh
key-only item. -/
theorem updateItemAttr_of_absent {store : List Item} {key : String} (f : Item → Item)
    (h : ∀ it ∈ store, it.id ≠ key) :
    updateItemAttr store key f = store ++ [f (emptyItem key)] := by
  unfold updateItemAttr
  rw [if_neg]
  intro hany
  obtain ⟨it, hit, hid⟩ := List.any_eq_true.mp hany
  exact h it hit (by simpa using hid)

/-- After `mark_as_purchased`, every result item carrying the claimed id holds
`purchased = true` and exactly the supplied buyer attributes — regardless of
what was stored before. -/
theorem mark_as_purchased_sets {store : List Item} {item_id b m t : String} :
    ∀ it' ∈ mark_as_purchased store item_id b m t, it'.id = item_id →
      it'.purchased = some true ∧ it'.buyer_name = some b ∧
        it'.buyer_message = some m ∧ it'.purchase_timestamp = some t := by
  intro it' hmem hid
  rcases mem_updateItemAttr hmem with ⟨it, _, ⟨_, rfl⟩ | ⟨hk, rfl⟩⟩ | ⟨rfl, _⟩
  · exact ⟨rfl, rfl, rfl, rfl⟩
  · exact absurd hid hk
  · exact ⟨rfl, rfl, rfl, rfl⟩

/-- A concrete already-claimed item: the lamp, claimed by Alice. -/
def claimedLamp : Item :=
  { id := "i1", item_name := some "Lamp", price := some 40, image_data := some "imgB",
    description := some "tall", purchased := some true, buyer_name := some "Alice",
    buyer_message := some "hi", purchase_timestamp := some "t1" }

/-- C1 counterexample: `mark_as_purchased` on an item whose stored `purchased`
is already `true` does not fail and does not leave the item unchanged — the
write goes through and replaces the first buyer's attributes. -/
theorem claim_on_claimed_item_writes_cex :
    claimedLamp.purchased = some true ∧
      (mark_as_purchased [claimedLamp] "i1" "Bob" "yo" "t2").map Item.buyer_name
        = [some "Bob"] := by
  decide

/-- C1 (amended): the claim write is unconditional — no check of the stored
`purchased` value exists, so of two successive claims for the same id both
succeed and the second overwrites the first claimant's attributes. -/
theorem claim_write_is_unconditional (store : List Item)
    (item_id b₁ m₁ t₁ b₂ m₂ t₂ : String) :
    ∀ it' ∈ mark_as_purchased (mark_as_purchased store item_id b₁ m₁ t₁) item_id b₂ m₂ t₂,
      it'.id = item_id →
        it'.purchased = some true ∧ it'.buyer_name = some b₂ ∧
          it'.buyer_message = some m₂ ∧ it'.purchase_timestamp = some t₂ :=
  fun it' hmem hid => mark_as_purchased_sets it' hmem hid

/-- C1 witness: a concrete double claim where the second claim succeeds. -/
theorem claim_write_is_unconditional_witness :
    (purchaseOnlyItem "i1" "Bob" "yo" "t2").purchased = some true ∧
      (purchaseOnlyItem "i1" "Bob" "yo" "t2").buyer_name = some "Bob" ∧
        (purchaseOnlyItem "i1" "Bob" "yo" "t2").buyer_message = some "yo" ∧
          (purchaseOnlyItem "i1" "Bob" "yo" "t2").purchase_timestamp = some "t2" :=
  claim_write_is_unconditional [] "i1" "Alice" "hi" "t1" "Bob" "yo" "t2"
    (purchaseOnlyItem "i1" "Bob" "yo" "t2") (by decide) (by decide)

/-- Python's `not name.strip()` holds exactly when the name consists solely of
whitespace (or is empty). -/
def isBlank (s : String) : Bool :=
  s.data.all (fun c => c.isWhitespace)

/-- Model of the shop page claim widget for one item (lines 249-260): while
`name.strip()` is blank the claim button is rendered disabled, so the click
handler calling `mark_as_purchased` can only run on a non-blank name. -/
def shop_claim_action (store : List Item) (item_id nm message timestamp : String) :
    List Item :=
  if isBlank nm then store
  else mark_as_purchased store item_id nm message timestamp

/-- C3 counterexample: invoking the store-layer claim write directly with an
empty buyer name does not fail — it marks the item purchased, so the
non-empty-name rule is not enforced server-side. -/
theorem claim_blank_name_writes_cex :
    (mark_as_purchased [mkGift "i1" "Vase" 25 "imgA" "blue"] "i1" "" "msg" "t1").map
        Item.purchased = [some true] ∧
      (mkGift "i1" "Vase" 25 "imgA" "blue").purchased = some false := by
  decide

/-- C3 (amended): the non-empty-name rule is enforced client-side only: the
shop widget never invokes the write while the stripped name is empty, but
`mark_as_purchased` itself performs no validation and, called directly with a
blank name, still marks the item purchased and stores the blank name. -/
theorem blank_name_enforced_client_side_only (store : List Item)
    (item_id nm m t : String) :
    (isBlank nm = true → shop_claim_action store item_id nm m t = store) ∧
      (∀ it' ∈ mark_as_purchased store item_id nm m t, it'.id = item_id →
        it'.purchased = some true ∧ it'.buyer_name = some nm) := by
  constructor
  · intro h
    simp [shop_claim_action, h]
  · intro it' hmem hid
    exact ⟨(mark_as_purchased_sets it' hmem hid).1, (mark_as_purchased_sets it' hmem hid).2.1⟩

/-- C3 witness: a whitespace-only name leaves a concrete table untouched via
the shop widget, while a direct blank-name write marks the item purchased. -/
theorem blank_name_enforced_client_side_only_witness :
    shop_claim_action [mkGift "i1" "Vase" 25 "imgA" "blue"] "i1" "  " "m" "t"
        = [mkGift "i1" "Vase" 25 "imgA" "blue"] ∧
      ((purchaseOnlyItem "i1" "" "m" "t").purchased = some true ∧
        (purchaseOnlyItem "i1" "" "m" "t").buyer_name = some "") :=
  ⟨(blank_name_enforced_client_side_only [mkGift "i1" "Vase" 25 "imgA" "blue"]
      "i1" "  " "m" "t").1 (by decide),
   (blank_name_enforced_client_side_only [] "i1" "" "m" "t").2
      (purchaseOnlyItem "i1" "" "m" "t") (by decide) (by decide)⟩

/-- C6 counterexample: `mark_as_purchased` on an id absent from the table does
not fail with a not-found error and is not effect-free — it creates a fresh
item holding only the key and the purchase attributes. -/
theorem claim_absent_id_creates_item_cex :
    mark_as_purchased [] "ghost" "Alice" "hi" "t0" = [purchaseOnlyItem "ghost" "Alice" "hi" "t0"]
      ∧ [purchaseOnlyItem "ghost" "Alice" "hi" "t0"] ≠ ([] : List Item) := by
  decide

/-- C6 (amended): on an absent id the underlying DynamoDB update upserts
instead of failing: `mark_as_purchased` appends a fresh item holding only the
key and the four purchase attributes. -/
theorem claim_absent_id_upserts (store : List Item) (item_id b m t : String)
    (habs : ∀ it ∈ store, it.id ≠ item_id) :
    mark_as_purchased store item_id b m t = store ++ [purchaseOnlyItem item_id b m t] := by
  unfold mark_as_purchased
  rw [updateItemAttr_of_absent _ habs]
  rfl

/-- C6 witness: claiming an id absent from a concrete five-item table appends
the fresh purchase-only item. -/
theorem claim_absent_id_upserts_witness :
    mark_as_purchased fiveGifts "ghost" "A" "m" "t"
      = fiveGifts ++ [purchaseOnlyItem "ghost" "A" "m" "t"] :=
  claim_absent_id_upserts fiveGifts "ghost" "A" "m" "t" (by decide)

/-- Each item of a `putItem` result is a stored item or the put item. -/
theorem mem_putItem {store : List Item} {x it' : Item} (h : it' ∈ putItem store x) :
    it' ∈ store ∨ it' = x := by
  unfold putItem at h
  by_cases hany : store.any (fun it => it.id = x.id)
  · rw [if_pos hany] at h
    obtain ⟨it, hit, rfl⟩ := List.mem_map.mp h
    by_cases hid : it.id = x.id
    · rw [if_pos hid]
      exact Or.inr rfl
    · rw [if_neg hid]
      exact Or.inl hit
  · rw [if_neg hany] at h
    rcases List.mem_append.mp h with hin | hx
    · exact Or.inl hin
    · exact Or.inr (by simpa using hx)

/-- When the put key is fresh, `putItem` appends the item. -/
theorem putItem_of_fresh {store : List Item} {x : Item} (h : ∀ it ∈ store, it.id ≠ x.id) :
    putItem store x = store ++ [x] := by
  unfold putItem
  rw [if_neg]
  intro hany
  obtain ⟨it, hit, hid⟩ := List.any_eq_true.mp hany
  exact h it hit (by simpa using hid)

/-- C7 counterexample: with a small image, `add_product` accepts an empty name
and a negative price: it returns success and writes the item, raising no
validation error for either field. -/
theorem add_product_no_name_price_validation_cex :
    add_product [] "i9" "" (-5) { size := 512000, data := "img" } "d"
      = (true, [mkGift "i9" "" (-5) "img" "d"]) := by
  decide

/-- C7 (amended): `add_product` validates the image size only: an image over
the 1 MiB limit is rejected with nothing written (so a 2 MiB image fails),
while any image within the limit — a 500 KiB one included — is accepted and
the fresh item is stored with `purchased = false`; the name and the price are
not validated at this layer. -/
theorem add_product_validates_image_size_only (store : List Item)
    (item_id item_name : String) (price : Rat) (image : UploadedImage)
    (description : String) :
    (1024 * 1024 < image.size →
        add_product store item_id item_name price image description = (false, store)) ∧
      (image.size ≤ 1024 * 1024 → (∀ it ∈ store, it.id ≠ item_id) →
        add_product store item_id item_name price image description
          = (true, store ++ [mkGift item_id item_name price image.data description])) := by
  constructor
  · intro hbig
    have hc : check_image_size image 1 = false := by
      simp only [check_image_size, decide_eq_false_iff_not]
      omega
    simp [add_product, hc]
  · intro hsmall hfresh
    have hc : check_image_size image 1 = true := by
      simp only [check_image_size, decide_eq_true_eq]
      omega
    simp only [add_product, hc, if_true]
    rw [putItem_of_fresh (fun it hit => hfresh it hit)]
    rfl

/-- C7 witness: a 2 MiB image is rejected with nothing written; a 500 KiB
image with the same other inputs is stored. -/
theorem add_product_validates_image_size_only_witness :
    add_product [] "w1" "Lamp" 40 { size := 2097152, data := "big" } "d" = (false, []) ∧
      add_product [] "w1" "Lamp" 40 { size := 512000, data := "small" } "d"
        = (true, [mkGift "w1" "Lamp" 40 "small" "d"]) :=
  ⟨(add_product_validates_image_size_only [] "w1" "Lamp" 40
      { size := 2097152, data := "big" } "d").1 (by decide),
   (add_product_validates_image_size_only [] "w1" "Lamp" 40
      { size := 512000, data := "small" } "d").2 (by decide) (by decide)⟩

/-- Relation between a stored item and its successor under an admin field
update without an image: the image and the four purchase attributes are
untouched, the keyed item gets exactly the three new fields, and every other
item is untouched entirely. -/
def admin_update_frame (item_id item_name : String) (price : Rat) (description : String)
    (it it' : Item) : Prop :=
  it'.id = it.id ∧ it'.image_data = it.image_data ∧ it'.purchased = it.purchased ∧
    it'.buyer_name = it.buyer_name ∧ it'.buyer_message = it.buyer_message ∧
    it'.purchase_timestamp = it.purchase_timestamp ∧
    (it.id = item_id → it'.item_name = some item_name ∧ it'.price = some price ∧
      it'.description = some description) ∧
    (it.id ≠ item_id → it' = it)

/-- Relation between a stored item and its successor stating the purchase
attributes are untouched. -/
def purchase_untouched (it it' : Item) : Prop :=
  it'.id = it.id ∧ it'.purchased = it.purchased ∧ it'.buyer_name = it.buyer_name ∧
    it'.buyer_message = it.buyer_message ∧ it'.purchase_timestamp = it.purchase_timestamp

/-- C9: on a store holding the id, `update_product` without an image succeeds
and rewrites the store pointwise: the keyed item receives exactly the new
name, price and description while its image and purchase attributes are kept,
all other items are untouched; and with any image argument whatsoever, no
admin update modifies the purchase attributes of any stored item. -/
theorem update_product_frame (store : List Item) (item_id item_name : String)
    (price : Rat) (description : String)
    (hpresent : ∃ it ∈ store, it.id = item_id) :
    ((update_product store item_id item_name price description none).1 = true ∧
      List.Forall₂ (admin_update_frame item_id item_name price description) store
        (update_product store item_id item_name price description none).2) ∧
      ∀ image : Option UploadedImage,
        List.Forall₂ purchase_untouched store
          (update_product store item_id item_name price description image).2 := by
  have hmap : ∀ g : Item → Item,
      updateItemAttr store item_id g
        = store.map (fun it => if it.id = item_id then g it else it) :=
    fun g => updateItemAttr_of_mem g hpresent
  have hframe : ∀ g : Item → Item, (∀ it, purchase_untouched it (g it)) →
      List.Forall₂ purchase_untouched store
        (store.map (fun it => if it.id = item_id then g it else it)) := by
    intro g hg
    rw [List.forall₂_map_right_iff]
    refine List.forall₂_same.mpr fun it _ => ?_
    by_cases hid : it.id = item_id
    · rw [if_pos hid]
      exact hg it
    · rw [if_neg hid]
      exact ⟨rfl, rfl, rfl, rfl, rfl⟩
  have h2none : (update_product store item_id item_name price description none).2
      = updateItemAttr store item_id (fun it =>
          { it with item_name := some item_name, price := some price,
                    description := some description }) := rfl
  refine ⟨⟨rfl, ?_⟩, ?_⟩
  · rw [h2none, hmap, List.forall₂_map_right_iff]
    refine List.forall₂_same.mpr fun it _ => ?_
    by_cases hid : it.id = item_id
    · rw [if_pos hid]
      exact ⟨rfl, rfl, rfl, rfl, rfl, rfl, fun _ => ⟨rfl, rfl, rfl⟩, fun hne => absurd hid hne⟩
    · rw [if_neg hid]
      exact ⟨rfl, rfl, rfl, rfl, rfl, rfl, fun hk => absurd hk hid, fun _ => rfl⟩
  · intro image
    match image with
    | none =>
        rw [h2none, hmap]
        exact hframe _ fun it => ⟨rfl, rfl, rfl, rfl, rfl⟩
    | some img =>
        by_cases hc : check_image_size img 1 = true
        · have h2img : (update_product store item_id item_name price description
              (some img)).2 = updateItemAttr store item_id (fun it =>
                { it with item_name := some item_name, price := some price,
                          description := some description, image_data := some img.data }) := by
            simp only [update_product, hc, if_true]
          rw [h2img, hmap]
          exact hframe _ fun it => ⟨rfl, rfl, rfl, rfl, rfl⟩
        · have h2img : (update_product store item_id item_name price description
              (some img)).2 = store := by
            simp only [update_product, if_neg hc]
          rw [h2img]
          exact List.forall₂_same.mpr fun it _ => ⟨rfl, rfl, rfl, rfl, rfl⟩

/-- C9 witness: updating the vase's name, price and description on a concrete
two-item table keeps its image and purchase attributes and leaves the lamp
untouched. -/
theorem update_product_frame_witness :
    ((update_product [mkGift "g1" "Vase" 25 "imgA" "blue", claimedLamp]
          "g1" "Basket" 35 "woven" none).1 = true ∧
      List.Forall₂ (admin_update_frame "g1" "Basket" 35 "woven")
        [mkGift "g1" "Vase" 25 "imgA" "blue", claimedLamp]
        (update_product [mkGift "g1" "Vase" 25 "imgA" "blue", claimedLamp]
          "g1" "Basket" 35 "woven" none).2) ∧
      ∀ image : Option UploadedImage,
        List.Forall₂ purchase_untouched [mkGift "g1" "Vase" 25 "imgA" "blue", claimedLamp]
          (update_product [mkGift "g1" "Vase" 25 "imgA" "blue", claimedLamp]
            "g1" "Basket" 35 "woven" image).2 :=
  update_product_frame [mkGift "g1" "Vase" 25 "imgA" "blue", claimedLamp]
    "g1" "Basket" 35 "woven" (by decide)

/-- The pandas filter `df[df['purchased'] == False]` used by `shop_page`
(line 232) and `admin_panel` (line 180). -/
def available_items (df : List Item) : List Item :=
  df.filter (fun it => it.purchased = some false)

/-- The pandas filter `df[df['purchased'] == True]` used by `shop_page`
(line 263) and `admin_panel` (line 163). -/
def purchased_items (df : List Item) : List Item :=
  df.filter (fun it => it.purchased = some true)

/-- C8: whenever every listed item carries its boolean `purchased` attribute
(as the data model guarantees), the shop and admin filters partition the
listing exhaustively and disjointly: each listed item lands in exactly one of
the available and claimed collections. -/
theorem catalog_partition (df : List Item) (hflag : ∀ it ∈ df, it.purchased ≠ none) :
    ∀ it ∈ df,
      (it ∈ available_items df ∧ it ∉ purchased_items df) ∨
        (it ∈ purchased_items df ∧ it ∉ available_items df) := by
  intro it hit
  match hp : it.purchased with
  | none => exact absurd hp (hflag it hit)
  | some false =>
      left
      refine ⟨List.mem_filter.mpr ⟨hit, by simp [hp]⟩, fun hmem => ?_⟩
      have := (List.mem_filter.mp hmem).2
      simp [hp] at this
  | some true =>
      right
      refine ⟨List.mem_filter.mpr ⟨hit, by simp [hp]⟩, fun hmem => ?_⟩
      have := (List.mem_filter.mp hmem).2
      simp [hp] at this

/-- A concrete available item used by witnesses. -/
def giftVase : Item := mkGift "g1" "Vase" 25 "imgA" "blue"

/-- C8 witness: on a concrete listing of one available and one claimed item,
the vase lands in exactly one of the two collections. -/
theorem catalog_partition_witness :
    (giftVase ∈ available_items [giftVase, claimedLamp] ∧
        giftVase ∉ purchased_items [giftVase, claimedLamp]) ∨
      (giftVase ∈ purchased_items [giftVase, claimedLamp] ∧
        giftVase ∉ available_items [giftVase, claimedLamp]) :=
  catalog_partition [giftVase, claimedLamp] (by decide) giftVase (by decide)

/-- Model of the admin panel add-product form (lines 146-158): the price
widget enforces `min_value=0.0`, and the click handler runs `add_product`
only when the Python guard `item_name and price and description and image`
holds — both texts non-empty, the price truthy (nonzero) and an image
uploaded. -/
def admin_add_flow (store : List Item) (item_id item_name : String) (price : Rat)
    (description : String) (image : Option UploadedImage) : List Item :=
  match image with
  | none => store
  | some img =>
      if item_name ≠ "" ∧ price ≠ 0 ∧ description ≠ "" then
        (add_product store item_id item_name price img description).2
      else store

/-- C10: the admin add-product flow runs the insert only when name,
description and image are all provided and the price is nonzero; with the
widget's non-negativity, every item the flow adds beyond the already stored
ones has a non-empty name, a non-empty description, an image, and a strictly
positive price. -/
theorem admin_add_flow_strict_inputs (store : List Item) (item_id item_name : String)
    (price : Rat) (description : String) (image : Option UploadedImage)
    (hwidget : 0 ≤ price) :
    ((image = none ∨ item_name = "" ∨ price = 0 ∨ description = "") →
        admin_add_flow store item_id item_name price description image = store) ∧
      ∀ it' ∈ admin_add_flow store item_id item_name price description image,
        it' ∈ store ∨
          (it'.item_name = some item_name ∧ it'.description = some description ∧
            it'.price = some price ∧ it'.image_data ≠ none ∧
            item_name ≠ "" ∧ description ≠ "" ∧ 0 < price) := by
  match image with
  | none =>
      exact ⟨fun _ => rfl, fun it' hit' => Or.inl hit'⟩
  | some img =>
      by_cases hguard : item_name ≠ "" ∧ price ≠ 0 ∧ description ≠ ""
      · have heq : admin_add_flow store item_id item_name price description (some img)
            = (add_product store item_id item_name price img description).2 := by
          simp only [admin_add_flow, if_pos hguard]
        constructor
        · intro hdeg
          rcases hdeg with h | h | h | h
          · exact absurd h (by simp)
          · exact absurd h hguard.1
          · exact absurd h hguard.2.1
          · exact absurd h hguard.2.2
        · intro it' hit'
          rw [heq] at hit'
          by_cases hc : check_image_size img 1 = true
          · have h2 : (add_product store item_id item_name price img description).2
                = putItem store (mkGift item_id item_name price img.data description) := by
              simp only [add_product, hc, if_true]
              rfl
            rw [h2] at hit'
            rcases mem_putItem hit' with h | rfl
            · exact Or.inl h
            · refine Or.inr ⟨rfl, rfl, rfl, by simp [mkGift], hguard.1, hguard.2.2, ?_⟩
              exact lt_of_le_of_ne hwidget (Ne.symm hguard.2.1)
          · have h2 : (add_product store item_id item_name price img description).2
                = store := by
              simp only [add_product, if_neg hc]
            rw [h2] at hit'
            exact Or.inl hit'
      · have heq : admin_add_flow store item_id item_name price description (some img)
            = store := by
          simp only [admin_add_flow, if_neg hguard]
        exact ⟨fun _ => heq, fun it' hit' => Or.inl (heq ▸ hit')⟩

/-- C10 witness: a missing image blocks the insert on a concrete call, and an
item added through the guarded flow carries all four strict properties. -/
theorem admin_add_flow_strict_inputs_witness :
    admin_add_flow [] "n1" "Towels" 20 "soft" none = [] ∧
      (mkGift "n1" "Towels" 20 "imgT" "soft" ∈ ([] : List Item) ∨
        ((mkGift "n1" "Towels" 20 "imgT" "soft").item_name = some "Towels" ∧
          (mkGift "n1" "Towels" 20 "imgT" "soft").description = some "soft" ∧
          (mkGift "n1" "Towels" 20 "imgT" "soft").price = some 20 ∧
          (mkGift "n1" "Towels" 20 "imgT" "soft").image_data ≠ none ∧
          "Towels" ≠ "" ∧ "soft" ≠ "" ∧ (0 : Rat) < 20)) :=
  ⟨(admin_add_flow_strict_inputs [] "n1" "Towels" 20 "soft" none (by decide)).1
      (Or.inl rfl),
   (admin_add_flow_strict_inputs [] "n1" "Towels" 20 "soft"
      (some { size := 1000, data := "imgT" }) (by decide)).2
      (mkGift "n1" "Towels" 20 "imgT" "soft") (by decide)⟩

/-- The buyer-attribute invariant of the data model: an unpurchased item
carries none of the three buyer attributes, and a purchased item carries all
three (set by the single claim write). -/
def buyerFieldsConsistent (it : Item) : Prop :=
  (it.purchased = some true →
      it.buyer_name ≠ none ∧ it.buyer_message ≠ none ∧ it.purchase_timestamp ≠ none) ∧
    (it.purchased ≠ some true →
      it.buyer_name = none ∧ it.buyer_message = none ∧ it.purchase_timestamp = none)

/-- The write operations the application exposes: the admin insert, the guest
claim, and the admin field update. -/
inductive Op
  | add (item_id item_name : String) (price : Rat) (image : UploadedImage)
      (description : String)
  | claim (item_id buyer_name message timestamp : String)
  | update (item_id item_name : String) (price : Rat) (description : String)
      (image : Option UploadedImage)

/-- The table state each exposed operation leaves behind. -/
def applyOp (store : List Item) : Op → List Item
  | Op.add i n p img d => (add_product store i n p img d).2
  | Op.claim i b m t => mark_as_purchased store i b m t
  | Op.update i n p d img => (update_product store i n p d img).2

/-- The id the code generates for an `add` is a fresh `uuid4`; the other
operations carry no freshness obligation. -/
def opIdFresh (store : List Item) : Op → Prop
  | Op.add i _ _ _ _ => ∀ it ∈ store, it.id ≠ i
  | _ => True

/-- In a store with pairwise distinct ids, items sharing an id coincide. -/
theorem eq_of_mem_of_id_eq {store : List Item} (hids : (store.map Item.id).Nodup)
    {a b : Item} (ha : a ∈ store) (hb : b ∈ store) (h : a.id = b.id) : a = b :=
  List.inj_on_of_nodup_map hids ha hb h

/-- Invariant preservation and purchased-monotonicity for one upserting
attribute update whose per-item effect `g` keeps ids, never clears
`purchased = true`, preserves the buyer invariant, and leaves a consistent
item when applied to the fresh key-only item. -/
theorem updateItemAttr_preserves {store : List Item} {key : String} {g : Item → Item}
    (hids : (store.map Item.id).Nodup)
    (hinv : ∀ it ∈ store, buyerFieldsConsistent it)
    (hgid : ∀ x, (g x).id = x.id)
    (hgmono : ∀ x, x.purchased = some true → (g x).purchased = some true)
    (hginv : ∀ x ∈ store, buyerFieldsConsistent x → buyerFieldsConsistent (g x))
    (hgem : buyerFieldsConsistent (g (emptyItem key))) :
    (∀ it' ∈ updateItemAttr store key g, buyerFieldsConsistent it') ∧
      ∀ it ∈ store, ∀ it' ∈ updateItemAttr store key g, it'.id = it.id →
        it.purchased = some true → it'.purchased = some true := by
  constructor
  · intro it' hit'
    rcases mem_updateItemAttr hit' with ⟨it0, hit0, ⟨hk, heq⟩ | ⟨hk, heq⟩⟩ | ⟨heq, habs⟩
    · rw [heq]
      exact hginv it0 hit0 (hinv it0 hit0)
    · rw [heq]
      exact hinv it0 hit0
    · rw [heq]
      exact hgem
  · intro it hit it' hit' hid hpu
    rcases mem_updateItemAttr hit' with ⟨it0, hit0, ⟨hk, heq⟩ | ⟨hk, heq⟩⟩ | ⟨heq, habs⟩
    · have hid0 : it0.id = it.id := by
        rw [← hgid it0, ← heq, hid]
      have he : it0 = it := eq_of_mem_of_id_eq hids hit0 hit hid0
      rw [heq]
      exact hgmono it0 (he ▸ hpu)
    · have he : it0 = it := eq_of_mem_of_id_eq hids hit0 hit (by rw [← heq, hid])
      rw [heq, he]
      exact hpu
    · have hkid : it.id = key := by
        rw [← hid, heq, hgid]
        rfl
      exact absurd hkid (habs it hit)

/-- C2: across every exposed write with the data-model hypotheses (distinct
ids, fresh generated id for an insert, consistent starting store), the buyer
invariant is preserved — buyer name, message and timestamp are absent while
an item is unpurchased and all present once purchased, set by the one claim
write — and `purchased` never reverts: an item stored with `purchased = true`
still has it after any exposed operation. -/
theorem purchased_monotone_and_buyer_atomic (store : List Item) (op : Op)
    (hids : (store.map Item.id).Nodup)
    (hfresh : opIdFresh store op)
    (hinv : ∀ it ∈ store, buyerFieldsConsistent it) :
    (∀ it' ∈ applyOp store op, buyerFieldsConsistent it') ∧
      ∀ it ∈ store, ∀ it' ∈ applyOp store op, it'.id = it.id →
        it.purchased = some true → it'.purchased = some true := by
  match op with
  | Op.add i n p img d =>
      by_cases hc : check_image_size img 1 = true
      · have h2 : applyOp store (Op.add i n p img d)
            = store ++ [mkGift i n p img.data d] := by
          show (add_product store i n p img d).2 = _
          simp only [add_product, hc, if_true]
          exact putItem_of_fresh fun it hit => hfresh it hit
        rw [h2]
        constructor
        · intro it' hit'
          rcases List.mem_append.mp hit' with h | h
          · exact hinv it' h
          · have heq : it' = mkGift i n p img.data d := by simpa using h
            rw [heq]
            refine ⟨fun hpu => absurd hpu (by simp [mkGift]), fun hne => ⟨rfl, rfl, rfl⟩⟩
        · intro it hit it' hit' hid hpu
          rcases List.mem_append.mp hit' with h | h
          · have he : it' = it := eq_of_mem_of_id_eq hids h hit hid
            rw [he]
            exact hpu
          · have heq : it' = mkGift i n p img.data d := by simpa using h
            have hi : it.id = i := by
              rw [← hid, heq]
              rfl
            exact absurd hi (hfresh it hit)
      · have h2 : applyOp store (Op.add i n p img d) = store := by
          show (add_product store i n p img d).2 = _
          simp only [add_product, if_neg hc]
        rw [h2]
        refine ⟨hinv, ?_⟩
        intro it hit it' hit' hid hpu
        have he : it' = it := eq_of_mem_of_id_eq hids hit' hit hid
        rw [he]
        exact hpu
  | Op.claim i b m t =>
      have h2 : applyOp store (Op.claim i b m t)
          = updateItemAttr store i (fun it =>
              { it with purchased := some true, buyer_name := some b,
                        buyer_message := some m, purchase_timestamp := some t }) := rfl
      rw [h2]
      refine updateItemAttr_preserves hids hinv (fun x => rfl) (fun x hx => rfl) ?_ ?_
      · intro x hxmem hx
        exact ⟨fun hpu => ⟨fun h => Option.noConfusion h, fun h => Option.noConfusion h,
          fun h => Option.noConfusion h⟩, fun hne => absurd rfl hne⟩
      · exact ⟨fun hpu => ⟨fun h => Option.noConfusion h, fun h => Option.noConfusion h,
          fun h => Option.noConfusion h⟩, fun hne => absurd rfl hne⟩
  | Op.update i n p d img =>
      match img with
      | none =>
          have h2 : applyOp store (Op.update i n p d none)
              = updateItemAttr store i (fun it =>
                  { it with item_name := some n, price := some p,
                            description := some d }) := rfl
          rw [h2]
          refine updateItemAttr_preserves hids hinv (fun x => rfl) (fun x hx => hx) ?_ ?_
          · intro x hxmem hx
            exact hx
          · exact ⟨fun hpu => absurd hpu (by simp [emptyItem]), fun hne => ⟨rfl, rfl, rfl⟩⟩
      | some im =>
          by_cases hc : check_image_size im 1 = true
          · have h2 : applyOp store (Op.update i n p d (some im))
                = updateItemAttr store i (fun it =>
                    { it with item_name := some n, price := some p,
                              description := some d, image_data := some im.data }) := by
              show (update_product store i n p d (some im)).2 = _
              simp only [update_product, hc, if_true]
            rw [h2]
            refine updateItemAttr_preserves hids hinv (fun x => rfl) (fun x hx => hx) ?_ ?_
            · intro x hxmem hx
              exact hx
            · exact ⟨fun hpu => absurd hpu (by simp [emptyItem]), fun hne => ⟨rfl, rfl, rfl⟩⟩
          · have h2 : applyOp store (Op.update i n p d (some im)) = store := by
              show (update_product store i n p d (some im)).2 = _
              simp only [update_product, if_neg hc]
            rw [h2]
            refine ⟨hinv, ?_⟩
            intro it hit it' hit' hid hpu
            have he : it' = it := eq_of_mem_of_id_eq hids hit' hit hid
            rw [he]
            exact hpu

/-- The buyer invariant is a decidable check on one item. -/
instance (it : Item) : Decidable (buyerFieldsConsistent it) := by
  unfold buyerFieldsConsistent
  infer_instance

/-- The vase after Alice claims it. -/
def claimedVase : Item :=
  { id := "g1", item_name := some "Vase", price := some 25, image_data := some "imgA",
    description := some "blue", purchased := some true, buyer_name := some "Alice",
    buyer_message := some "hi", purchase_timestamp := some "t1" }

/-- C2 witness: claiming the vase on a concrete one-item table yields an item
satisfying the buyer invariant — purchased together with all three buyer
attributes in the one write. -/
theorem purchased_monotone_and_buyer_atomic_witness :
    buyerFieldsConsistent claimedVase :=
  (purchased_monotone_and_buyer_atomic [giftVase] (Op.claim "g1" "Alice" "hi" "t1")
      (by decide) True.intro (by decide)).1 claimedVase (by decide)


/-- The two configured secrets: `st.secrets["password"]` for the shop and
`st.secrets["password_admin"]` for the admin panel. -/
structure Secrets where
  password : String
  password_admin : String

/-- The two views, selected at module entry by the query parameters. -/
inductive Route
  | guest
  | admin
deriving DecidableEq, Repr

/-- Module entry (line 305): the admin route is requested exactly when the
`secretadmin` query parameter is present. -/
def select_route (query_params : List String) : Route :=
  if query_params.contains "secretadmin" then Route.admin else Route.guest

/-- The secrets key `check_password` receives on each route (lines 307, 312):
`"password_admin"` on the admin route, `"password"` otherwise. -/
def secretFor (s : Secrets) : Route → String
  | Route.guest => s.password
  | Route.admin => s.password_admin

/-- `hmac.compare_digest`: a timing-safe comparison, functionally string
equality. -/
def compare_digest (a b : String) : Bool :=
  a = b

/-- `password_entered` (lines 282-288): the submission callback overwrites
the single session entry `password_correct` with the outcome of comparing the
submitted text against the secret for the current route's key.  The session
state is that one optional flag (`none` while the key is absent); note it
does not record which route's secret set it. -/
def password_entered (s : Secrets) (r : Route) (entered : String) (_st : Option Bool) :
    Option Bool :=
  if compare_digest entered (secretFor s r) then some true else some false

/-- `check_password` (lines 290-300): the gate passes exactly when the
session flag holds `true`. -/
def check_password (st : Option Bool) : Bool :=
  st = some true

/-- The error display of `check_password` (lines 298-299): one fixed generic
message, rendered whenever the flag is present but the gate did not pass. -/
def gate_error (st : Option Bool) : Option String :=
  if check_password st then none
  else if st.isSome then some "Password incorrect" else none

/-- Module entry (lines 304-314): the requested view renders only when the
gate passes (`st.stop()` otherwise). -/
def app_view (st : Option Bool) (r : Route) : Option Route :=
  if check_password st then some r else none

/-- C5 counterexample: with guest secret "abc" and admin secret "xyz",
submitting "abc" on the guest route sets the shared `password_correct` flag,
after which the gate on the admin route (selected by `?secretadmin`) also
passes and the admin view renders: the guest secret does not unlock the guest
view only, so the two secrets' scopes are not independent. -/
theorem guest_secret_unlocks_admin_view_cex :
    select_route ["secretadmin"] = Route.admin /\
      app_view (password_entered { password := "abc", password_admin := "xyz" }
          Route.guest "abc" none) Route.admin
        = some Route.admin := by
  decide

/-- C5 (amended): each single submission behaves per route — it unlocks
exactly when it matches the secret for the route it is submitted on, and a
wrong secret leaves the gate locked showing the one fixed generic message,
identical on both routes — but the unlocked flag is shared between the
scopes, so after a successful submission on either route both views' gates
pass. -/
theorem access_gate_behaviour (s : Secrets) (r : Route) (p : String) :
    (check_password (password_entered s r p none) = true ↔ p = secretFor s r) /\
      (p ≠ secretFor s r →
        app_view (password_entered s r p none) r = none /\
          gate_error (password_entered s r p none) = some "Password incorrect") /\
      (p = secretFor s r → ∀ r2 : Route,
        app_view (password_entered s r p none) r2 = some r2) := by
  by_cases hp : p = secretFor s r
  · simp [password_entered, compare_digest, check_password, app_view, gate_error, hp]
  · simp [password_entered, compare_digest, check_password, app_view, gate_error, hp]

/-- C5 witness: with the concrete secrets, the admin secret unlocks on the
admin route, a wrong secret on the admin route stays locked behind the
generic message, and the guest secret unlocks the guest view. -/
theorem access_gate_behaviour_witness :
    (check_password (password_entered { password := "abc", password_admin := "xyz" }
          Route.admin "xyz" none) = true
        ↔ "xyz" = secretFor { password := "abc", password_admin := "xyz" } Route.admin) /\
      (app_view (password_entered { password := "abc", password_admin := "xyz" }
          Route.admin "wrong" none) Route.admin = none /\
        gate_error (password_entered { password := "abc", password_admin := "xyz" }
            Route.admin "wrong" none)
          = some "Password incorrect") /\
      app_view (password_entered { password := "abc", password_admin := "xyz" }
          Route.guest "abc" none) Route.guest
        = some Route.guest :=
  ⟨(access_gate_behaviour { password := "abc", password_admin := "xyz" }
      Route.admin "xyz").1,
   (access_gate_behaviour { password := "abc", password_admin := "xyz" }
      Route.admin "wrong").2.1 (by decide),
   (access_gate_behaviour { password := "abc", password_admin := "xyz" }
      Route.guest "abc").2.2 (by decide) Route.guest⟩

end WeddingShop
